import Mathlib

/-!
Verification development for the chunked image-data deserialization layer
(`ImageDataDeserializer.cpp`): a shallow embedding of the data model and of
the operations `TypedLabelGenerator::GetLabelDataFor`,
`ImageDataDeserializer::ImageDataDeserializer`, `CreateSequenceDescriptions`,
`GetInputs`, `GetSequenceDescriptions`, `GetSequencesById`, `RequireChunk`
and `ReleaseChunk`, followed by theorems settling the specification claims.

Modelling conventions:
* Machine integers (`size_t`, `int`) are modelled as `Nat`/`Int`; the
  `int -> size_t` conversion performed when `std::stoi`'s result is stored
  into the `size_t` field `classId` is explicit (`toSizeT`, reduction
  modulo `2 ^ 64`).
* Label buffer elements are `float`/`double` in the source, but the only
  values ever stored are the integers 0 and 1, which both representations
  hold exactly; the buffer is therefore modelled as `List Nat`.
* Fatal paths (`RuntimeError`, failed `assert`, thrown exceptions) are
  modelled as `Except`/`Option` error results.
* `cv::imread` followed by the `convertTo` numeric cast is an external
  opaque capability (the spec treats decoding as an external collaborator);
  it is passed to `GetSequencesById` as a total function
  `decode : String -> Image`.  The numeric cast preserves the 8-bit pixel
  values exactly, so conversion is value-preserving in the model.
* C++ pointers handed out in `Sequence::data` are modelled by an explicit
  address type `Ptr`; `readPtr` dereferences such an address against a
  deserializer state, which makes aliasing of the single reused label
  buffer observable.
-/

set_option autoImplicit false

namespace CNTK

/-- Element types of tensor streams; `et_other` stands for any enum value
other than the two the deserializer supports. -/
inductive ElementType where
  | et_float
  | et_double
  | et_other
  deriving DecidableEq

/-- The part of a sample layout the deserializer reads: `GetHeight()`,
the label dimensionality for the label stream. -/
structure SampleLayout where
  height : Nat
  deriving DecidableEq

/-- One declared input stream, as resolved by the external config helper. -/
structure InputDescription where
  elementType : ElementType
  sampleLayout : SampleLayout
  deriving DecidableEq

/-- `ImageSequenceDescription`: one manifest row of the timeline. -/
structure ImageSequenceDescription where
  id : Nat
  chunkId : Nat
  path : String
  classId : Nat
  numberOfSamples : Nat
  isValid : Bool
  deriving DecidableEq

/-- A decoded feature payload: dimensions and dense pixel buffer, as
produced by the external decode capability (`cv::imread` + `convertTo`). -/
structure Image where
  cols : Nat
  rows : Nat
  channels : Nat
  data : List Nat
  deriving DecidableEq

/-- Model of the raw data pointer stored in `Sequence::data`: either the
address of the label generator's single internal buffer (`&m_labelData[0]`)
or the address of the decoded image retained in slot `k` of
`m_currentImages`. -/
inductive Ptr where
  | labelBuf
  | imageBuf (slot : Nat)
  deriving DecidableEq

/-- The layout attached to a returned sequence: `ImageLayoutWHC` for
features, the configured label sample layout for labels. -/
inductive SeqLayout where
  | whc (w h c : Nat)
  | label (s : SampleLayout)
  deriving DecidableEq

/-- `Sequence`: one returned payload (data pointer, layout, sample count). -/
structure Sequence where
  data : Ptr
  layout : SeqLayout
  numberOfSamples : Nat
  deriving DecidableEq

/-- The mutable state of an `ImageDataDeserializer`, with the label
generator's buffer (`TypedLabelGenerator::m_labelData`) flattened in. -/
structure DeserializerState where
  m_featureElementType : ElementType
  m_labelSampleLayout : SampleLayout
  m_labelElementType : ElementType
  m_labelData : List Nat
  m_imageSequences : List ImageSequenceDescription
  m_currentImages : List Image
  deriving DecidableEq

/-- The configuration facts the external `ImageConfigHelper` resolves for
the constructor: the two streams, the manifest path, and the manifest
content (`none` models a file that cannot be opened for reading). -/
structure Config where
  feature : InputDescription
  label : InputDescription
  mapPath : String
  mapFile : Option (List String)
  deriving DecidableEq

/-- Fatal errors raised while building the timeline
(`CreateSequenceDescriptions`). -/
inductive BuildError where
  | cannotOpen (path : String)
  | invalidFormat (path : String) (line : Nat)
  | stoiError
  | assertFailed
  deriving DecidableEq

/-- Fatal errors raised by the constructor. -/
inductive ConstructError where
  | unsupportedLabelElementType
  | build (e : BuildError)
  deriving DecidableEq

instance {ε α : Type} [DecidableEq ε] [DecidableEq α] : DecidableEq (Except ε α)
  | .error a, .error b =>
    decidable_of_iff (a = b) ⟨fun h => h ▸ rfl, fun h => by cases h; rfl⟩
  | .error _, .ok _ => isFalse (fun h => by cases h)
  | .ok _, .error _ => isFalse (fun h => by cases h)
  | .ok a, .ok b =>
    decidable_of_iff (a = b) ⟨fun h => h ▸ rfl, fun h => by cases h; rfl⟩

/-! ### Label generator -/

/-- `TypedLabelGenerator` constructor: `m_labelData.resize(dimensions, 0)`. -/
def mkTypedLabelGenerator (dimensions : Nat) : List Nat :=
  List.replicate dimensions 0

/-- `TypedLabelGenerator::GetLabelDataFor`: zero-fill the owned buffer,
then set position `classId` to 1.  (When `classId` is out of bounds the
C++ write is undefined behaviour; `List.set` models it as a no-op, and
every in-repository caller establishes the bound first.) -/
def getLabelDataFor (buf : List Nat) (classId : Nat) : List Nat :=
  (buf.map (fun _ => 0)).set classId 1

/-- One-hot vector: `dim` zeros with position `classId` set to 1. -/
def oneHot (dim classId : Nat) : List Nat :=
  (List.replicate dim 0).set classId 1

/-! ### Manifest parsing -/

/-- The whitespace characters `std::isspace` recognises in the C locale. -/
def isSpaceChar (c : Char) : Bool :=
  c = ' ' ∨ c = '\t' ∨ c = '\n' ∨ c = '\x0b' ∨ c = '\x0c' ∨ c = '\r'

/-- Decimal value of a digit sequence. -/
def digitsToNat (ds : List Char) : Nat :=
  ds.foldl (fun a c => a * 10 + (c.toNat - 48)) 0

/-- `std::stoi`: skip leading whitespace, read an optional sign and a
non-empty run of decimal digits, ignore the rest of the string.  `none`
models the thrown `invalid_argument` (no digits) or `out_of_range`
(outside the range of `int`) exceptions. -/
def stoi (s : String) : Option Int :=
  let t := s.toList.dropWhile (fun c => isSpaceChar c)
  let signed : Int × List Char :=
    match t with
    | '-' :: r => (-1, r)
    | '+' :: r => (1, r)
    | r => (1, r)
  let ds := signed.2.takeWhile (fun c => c.isDigit)
  if ds.isEmpty then none
  else
    let v : Int := signed.1 * (digitsToNat ds : Int)
    if v < -(2 ^ 31) ∨ (2 ^ 31 - 1 : Int) < v then none else some v

/-- Conversion of the `int` returned by `std::stoi` to the `size_t` field
`classId` (two's-complement reduction modulo `2 ^ 64`). -/
def toSizeT (i : Int) : Nat :=
  (i % (2 ^ 64 : Int)).toNat

/-- `std::getline(ss, field, '\t')` on the remaining characters of the
line: fails (failbit) exactly when the stream is already at end-of-file,
otherwise extracts up to and including the first tab and yields the
characters before it. -/
def getlineTab (cs : List Char) : Option (String × List Char) :=
  match cs with
  | [] => none
  | _ =>
    let field := cs.takeWhile (fun c => ¬ c = '\t')
    let rest := cs.drop field.length
    let rest2 := match rest with
      | '\t' :: r => r
      | r => r
    some (⟨field⟩, rest2)

/-- The two `std::getline` calls of the manifest-line parser: yields the
first two tab-delimited fields, or `none` when the second extraction
fails (which triggers the "Invalid map file format" error). -/
def parseTwoFields (line : String) : Option (String × String) :=
  match getlineTab line.toList with
  | none => none
  | some (imgPath, rest) =>
    match getlineTab rest with
    | none => none
    | some (clsId, _) => some (imgPath, clsId)

/-- Processing of one manifest line at 0-based index `cline`: parse the
two fields, convert the class id with `std::stoi`, check the
`classId < labelDimension` assertion, and build the row description
(`numberOfSamples = 1`, `isValid = true`, `id = chunkId = cline`). -/
def rowStep (mapPath : String) (labelDimension cline : Nat) (line : String) :
    Except BuildError ImageSequenceDescription :=
  match parseTwoFields line with
  | none => .error (.invalidFormat mapPath cline)
  | some (imgPath, clsId) =>
    match stoi clsId with
    | none => .error .stoiError
    | some v =>
      let cid := toSizeT v
      if cid < labelDimension then
        .ok ⟨cline, cline, imgPath, cid, 1, true⟩
      else
        .error .assertFailed

/-- Decidable well-formedness of one manifest row: two extractable
fields, a parsable class id, and the class id below the label
dimensionality. -/
def rowOk (labelDimension : Nat) (line : String) : Bool :=
  match parseTwoFields line with
  | none => false
  | some (_, clsId) =>
    match stoi clsId with
    | none => false
    | some v => decide (toSizeT v < labelDimension)

/-- The manifest-reading loop of `CreateSequenceDescriptions`, with
`cline` the 0-based index of the first remaining line. -/
def buildRows (mapPath : String) (labelDimension cline : Nat) :
    List String → Except BuildError (List ImageSequenceDescription)
  | [] => .ok []
  | line :: rest =>
    match rowStep mapPath labelDimension cline line with
    | .error e => .error e
    | .ok d =>
      match buildRows mapPath labelDimension (cline + 1) rest with
      | .error e => .error e
      | .ok ds => .ok (d :: ds)

/-- `ImageDataDeserializer::CreateSequenceDescriptions`: open the map
file (`none` models an unopenable file and raises the "Could not open"
error) and read it line by line. -/
def CreateSequenceDescriptions (mapPath : String) (mapFile : Option (List String))
    (labelDimension : Nat) : Except BuildError (List ImageSequenceDescription) :=
  match mapFile with
  | none => .error (.cannotOpen mapPath)
  | some lines => buildRows mapPath labelDimension 0 lines

/-! ### Constructor and operations -/

/-- `ImageDataDeserializer::ImageDataDeserializer`: select the label
generator specialization from the label stream's element type (any other
element type raises the "Unsupported label element type" error), then
build the timeline from the manifest. -/
def mkImageDataDeserializer (config : Config) : Except ConstructError DeserializerState :=
  let labelDimension := config.label.sampleLayout.height
  if config.label.elementType = ElementType.et_other then
    .error .unsupportedLabelElementType
  else
    match CreateSequenceDescriptions config.mapPath config.mapFile labelDimension with
    | .error e => .error (.build e)
    | .ok seqs =>
      .ok ⟨config.feature.elementType, config.label.sampleLayout,
           config.label.elementType, mkTypedLabelGenerator labelDimension, seqs, []⟩

/-- `ImageDataDeserializer::GetInputs`: `assert(false)` followed by
`throw std::runtime_error("Not supported")` — always a fatal error. -/
def GetInputs (_st : DeserializerState) : Except String (List InputDescription) :=
  .error "Not supported"

/-- `ImageDataDeserializer::SetEpochConfiguration`: a no-op. -/
def SetEpochConfiguration (st : DeserializerState) : DeserializerState :=
  st

/-- `ImageDataDeserializer::GetSequenceDescriptions`: the timeline. -/
def GetSequenceDescriptions (st : DeserializerState) : List ImageSequenceDescription :=
  st.m_imageSequences

/-- The body of the per-id loop of `GetSequencesById`: look the id up
(the failed `assert(id < m_imageSequences.size())` is `none`), decode and
retain the image, generate the label into the shared buffer, and build
the `(image, label)` pair of `Sequence`s. -/
def processId (decode : String → Image) (st : DeserializerState) (id : Nat) :
    Option ((Sequence × Sequence) × DeserializerState) :=
  match st.m_imageSequences.get? id with
  | none => none
  | some desc =>
    let img := decode desc.path
    let image : Sequence :=
      ⟨Ptr.imageBuf st.m_currentImages.length,
       SeqLayout.whc img.cols img.rows img.channels, desc.numberOfSamples⟩
    let label : Sequence :=
      ⟨Ptr.labelBuf, SeqLayout.label st.m_labelSampleLayout, desc.numberOfSamples⟩
    some ((image, label),
      { st with
        m_currentImages := st.m_currentImages ++ [img],
        m_labelData := getLabelDataFor st.m_labelData desc.classId })

/-- The loop of `GetSequencesById` over the requested ids. -/
def getSequencesLoop (decode : String → Image) (st : DeserializerState) :
    List Nat → Option (List (Sequence × Sequence) × DeserializerState)
  | [] => some ([], st)
  | id :: rest =>
    match processId decode st id with
    | none => none
    | some (pair, st1) =>
      match getSequencesLoop decode st1 rest with
      | none => none
      | some (pairs, st2) => some (pair :: pairs, st2)

/-- `ImageDataDeserializer::GetSequencesById`: check the batch is
non-empty (`assert(0 < ids.size())`), clear `m_currentImages` (discard
the previous batch's decoded images), then materialize each id. -/
def GetSequencesById (decode : String → Image) (st : DeserializerState)
    (ids : List Nat) : Option (List (Sequence × Sequence) × DeserializerState) :=
  if ids.isEmpty then none
  else getSequencesLoop decode { st with m_currentImages := [] } ids

/-- `ImageDataDeserializer::RequireChunk`: always succeeds, no state
change. -/
def RequireChunk (st : DeserializerState) (_chunkIndex : Nat) : Bool × DeserializerState :=
  (true, st)

/-- `ImageDataDeserializer::ReleaseChunk`: a no-op. -/
def ReleaseChunk (st : DeserializerState) (_chunkIndex : Nat) : DeserializerState :=
  st

/-- Dereference a `Sequence::data` pointer against a deserializer state:
the label pointer reads the generator's single buffer, an image pointer
reads the retained image in that slot of `m_currentImages`. -/
def readPtr (st : DeserializerState) : Ptr → Option (List Nat)
  | .labelBuf => some st.m_labelData
  | .imageBuf k => (st.m_currentImages.get? k).map Image.data

/-! ### Helper lemmas: label generator -/

theorem getLabelDataFor_eq_oneHot (buf : List Nat) (classId : Nat) :
    getLabelDataFor buf classId = oneHot buf.length classId := by
  simp [getLabelDataFor, oneHot, List.map_const']

theorem length_getLabelDataFor (buf : List Nat) (classId : Nat) :
    (getLabelDataFor buf classId).length = buf.length := by
  simp [getLabelDataFor]

theorem length_oneHot (dim classId : Nat) : (oneHot dim classId).length = dim := by
  simp [oneHot]

theorem oneHot_get_self {dim classId : Nat} (h : classId < dim) :
    (oneHot dim classId).get? classId = some 1 := by
  have hlen : classId < (List.replicate dim (0 : Nat)).length := by simpa using h
  simpa [oneHot] using List.get?_set_eq_of_lt 1 hlen

theorem oneHot_get_other {dim classId j : Nat} (hj : j < dim) (hne : j ≠ classId) :
    (oneHot dim classId).get? j = some 0 := by
  rw [oneHot, List.get?_set_ne _ _ (fun h => hne h.symm)]
  simp [List.get?_eq_get, hj, List.get_replicate]

/-! ### Helper lemmas: timeline construction -/

theorem rowStep_ok_of_rowOk (path : String) (dim n : Nat) (line : String)
    (h : rowOk dim line = true) :
    ∃ d, rowStep path dim n line = .ok d ∧ d.id = n ∧ d.chunkId = n ∧
      d.numberOfSamples = 1 ∧ d.isValid = true ∧ d.classId < dim := by
  cases hp : parseTwoFields line with
  | none => simp [rowOk, hp] at h
  | some fields =>
    obtain ⟨imgPath, clsId⟩ := fields
    cases hs : stoi clsId with
    | none => simp [rowOk, hp, hs] at h
    | some v =>
      have hv : toSizeT v < dim := by simpa [rowOk, hp, hs] using h
      exact ⟨⟨n, n, imgPath, toSizeT v, 1, true⟩,
        by simp [rowStep, hp, hs, hv], rfl, rfl, rfl, rfl, hv⟩

theorem rowOk_of_rowStep_ok {path : String} {dim n : Nat} {line : String}
    {d : ImageSequenceDescription} (h : rowStep path dim n line = .ok d) :
    rowOk dim line = true := by
  cases hp : parseTwoFields line with
  | none => simp [rowStep, hp] at h
  | some fields =>
    obtain ⟨imgPath, clsId⟩ := fields
    cases hs : stoi clsId with
    | none => simp [rowStep, hp, hs] at h
    | some v =>
      by_cases hv : toSizeT v < dim
      · simp [rowOk, hp, hs, hv]
      · simp [rowStep, hp, hs, hv] at h

theorem buildRows_ok_spec (path : String) (dim : Nat) :
    ∀ (lines : List String) (n : Nat),
      (∀ i (hi : i < lines.length), rowOk dim (lines.get ⟨i, hi⟩) = true) →
      ∃ seqs, buildRows path dim n lines = .ok seqs ∧ seqs.length = lines.length ∧
        ∀ i (hi : i < lines.length), ∃ d, seqs.get? i = some d ∧
          d.id = n + i ∧ d.chunkId = n + i ∧ d.numberOfSamples = 1 ∧
          d.isValid = true ∧ d.classId < dim := by
  intro lines
  induction lines with
  | nil => exact fun n _ => ⟨[], rfl, rfl, fun i hi => absurd hi (by simp)⟩
  | cons line rest ih =>
    intro n h
    have h0 : rowOk dim line = true := h 0 (by simp)
    obtain ⟨d, hstep, hid, hch, hns, hvalid, hcls⟩ := rowStep_ok_of_rowOk path dim n line h0
    obtain ⟨seqs, hrest, hlen, hget⟩ :=
      ih (n + 1) (fun i hi => h (i + 1) (by simpa using Nat.succ_lt_succ hi))
    refine ⟨d :: seqs, ?_, by simp [hlen], ?_⟩
    · simp [buildRows, hstep, hrest]
    · intro i hi
      cases i with
      | zero => exact ⟨d, rfl, by simpa using hid, by simpa using hch, hns, hvalid, hcls⟩
      | succ j =>
        have hj : j < rest.length := by simpa using Nat.lt_of_succ_lt_succ hi
        obtain ⟨d2, hd2, hid2, hch2, hns2, hvalid2, hcls2⟩ := hget j hj
        have harith : n + 1 + j = n + (j + 1) := by omega
        exact ⟨d2, by simpa using hd2, by rw [hid2, harith], by rw [hch2, harith],
          hns2, hvalid2, hcls2⟩

theorem buildRows_ok_rows (path : String) (dim : Nat) :
    ∀ (lines : List String) (n : Nat) (seqs : List ImageSequenceDescription),
      buildRows path dim n lines = .ok seqs →
      ∀ i (hi : i < lines.length), rowOk dim (lines.get ⟨i, hi⟩) = true := by
  intro lines
  induction lines with
  | nil => exact fun n seqs _ i hi => absurd hi (by simp)
  | cons line rest ih =>
    intro n seqs h i hi
    unfold buildRows at h
    cases hstep : rowStep path dim n line with
    | error e => rw [hstep] at h; cases h
    | ok d =>
      rw [hstep] at h
      cases hrest : buildRows path dim (n + 1) rest with
      | error e => rw [hrest] at h; cases h
      | ok ds =>
        cases i with
        | zero => exact rowOk_of_rowStep_ok hstep
        | succ j =>
          have hj : j < rest.length := by simpa using Nat.lt_of_succ_lt_succ hi
          exact ih (n + 1) ds hrest j hj

theorem rowStep_invalid {path : String} {dim n : Nat} {line : String} {q : String} {k : Nat}
    (h : rowStep path dim n line = .error (.invalidFormat q k)) :
    q = path ∧ k = n ∧ parseTwoFields line = none := by
  cases hp : parseTwoFields line with
  | none =>
    simp [rowStep, hp] at h
    exact ⟨h.1.symm, h.2.symm, rfl⟩
  | some fields =>
    obtain ⟨imgPath, clsId⟩ := fields
    cases hs : stoi clsId with
    | none => simp [rowStep, hp, hs] at h
    | some v =>
      by_cases hv : toSizeT v < dim
      · simp [rowStep, hp, hs, hv] at h
      · simp [rowStep, hp, hs, hv] at h

theorem buildRows_invalid_lower (path : String) (dim : Nat) :
    ∀ (lines : List String) (n : Nat) (q : String) (k : Nat),
      buildRows path dim n lines = .error (.invalidFormat q k) →
      q = path ∧ n ≤ k := by
  intro lines
  induction lines with
  | nil => intro n q k h; cases h
  | cons line rest ih =>
    intro n q k h
    unfold buildRows at h
    cases hstep : rowStep path dim n line with
    | error e =>
      rw [hstep] at h
      simp at h
      subst h
      obtain ⟨hq, hk, _⟩ := rowStep_invalid hstep
      exact ⟨hq, by omega⟩
    | ok d =>
      rw [hstep] at h
      cases hrest : buildRows path dim (n + 1) rest with
      | error e2 =>
        rw [hrest] at h
        simp at h
        subst h
        have := ih (n + 1) q k hrest
        exact ⟨this.1, by omega⟩
      | ok ds =>
        rw [hrest] at h
        simp at h

theorem buildRows_invalid_iff (path : String) (dim : Nat) :
    ∀ (lines : List String) (n i : Nat) (linei : String),
      lines.get? i = some linei →
      (∀ j, j < i → ∀ lj, lines.get? j = some lj → rowOk dim lj = true) →
      (buildRows path dim n lines = .error (.invalidFormat path (n + i)) ↔
        parseTwoFields linei = none) := by
  intro lines
  induction lines with
  | nil => intro n i linei hline; cases hline
  | cons line rest ih =>
    intro n i linei hline hpre
    cases i with
    | zero =>
      have hl : linei = line := by simpa using hline.symm
      subst hl
      constructor
      · intro h
        unfold buildRows at h
        cases hstep : rowStep path dim n linei with
        | error e =>
          rw [hstep] at h
          simp at h
          subst h
          exact (rowStep_invalid hstep).2.2
        | ok d =>
          rw [hstep] at h
          cases hrest : buildRows path dim (n + 1) rest with
          | error e2 =>
            rw [hrest] at h
            simp at h
            subst h
            have := buildRows_invalid_lower path dim rest (n + 1) path (n + 0) hrest
            omega
          | ok ds =>
            rw [hrest] at h
            simp at h
      · intro hp
        have hstep : rowStep path dim n linei = .error (.invalidFormat path n) := by
          simp [rowStep, hp]
        simp [buildRows, hstep]
    | succ i2 =>
      have h0 : rowOk dim line = true := hpre 0 (Nat.succ_pos _) line (by simp)
      obtain ⟨d, hstep, _, _, _, _, _⟩ := rowStep_ok_of_rowOk path dim n line h0
      have hline2 : rest.get? i2 = some linei := by simpa using hline
      have hpre2 : ∀ j, j < i2 → ∀ lj, rest.get? j = some lj → rowOk dim lj = true :=
        fun j hj lj hlj => hpre (j + 1) (Nat.succ_lt_succ hj) lj (by simpa using hlj)
      have harith : n + (i2 + 1) = n + 1 + i2 := by omega
      have hih := ih (n + 1) i2 linei hline2 hpre2
      constructor
      · intro h
        unfold buildRows at h
        rw [hstep] at h
        cases hrest : buildRows path dim (n + 1) rest with
        | error e2 =>
          rw [hrest] at h
          simp at h
          subst h
          exact hih.mp (by rw [← harith]; exact hrest)
        | ok ds =>
          rw [hrest] at h
          simp at h
      · intro hp
        have hrest := hih.mpr hp
        simp [buildRows, hstep, hrest, harith]

/-! ### Helper lemmas: materialization loop -/

theorem processId_spec (decode : String → Image) (st : DeserializerState) (id : Nat)
    (pair : Sequence × Sequence) (st1 : DeserializerState)
    (h : processId decode st id = some (pair, st1)) :
    ∃ d, st.m_imageSequences.get? id = some d ∧
      pair = (⟨Ptr.imageBuf st.m_currentImages.length,
               SeqLayout.whc (decode d.path).cols (decode d.path).rows (decode d.path).channels,
               d.numberOfSamples⟩,
              ⟨Ptr.labelBuf, SeqLayout.label st.m_labelSampleLayout, d.numberOfSamples⟩) ∧
      st1 = { st with
              m_currentImages := st.m_currentImages ++ [decode d.path],
              m_labelData := getLabelDataFor st.m_labelData d.classId } := by
  unfold processId at h
  cases hd : st.m_imageSequences.get? id with
  | none =>
    rw [hd] at h
    exact Option.noConfusion h
  | some d =>
    rw [hd] at h
    cases h
    exact ⟨d, rfl, rfl, rfl⟩

theorem loop_preserves (decode : String → Image) :
    ∀ (ids : List Nat) (st : DeserializerState) (res : List (Sequence × Sequence))
      (st2 : DeserializerState), getSequencesLoop decode st ids = some (res, st2) →
      st2.m_imageSequences = st.m_imageSequences ∧
      st2.m_labelSampleLayout = st.m_labelSampleLayout ∧
      st2.m_labelData.length = st.m_labelData.length := by
  intro ids
  induction ids with
  | nil =>
    intro st res st2 h
    cases h
    exact ⟨rfl, rfl, rfl⟩
  | cons id rest ih =>
    intro st res st2 h
    unfold getSequencesLoop at h
    split at h
    · cases h
    next pair st1 hp =>
      split at h
      · cases h
      next pairs stf hr =>
        cases h
        obtain ⟨d, _, _, hst1⟩ := processId_spec decode st id pair st1 hp
        obtain ⟨h1, h2, h3⟩ := ih st1 pairs st2 hr
        subst hst1
        exact ⟨h1, h2, by rw [h3]; exact length_getLabelDataFor _ _⟩

theorem loop_total (decode : String → Image) :
    ∀ (ids : List Nat) (st : DeserializerState),
      (∀ id ∈ ids, id < st.m_imageSequences.length) →
      ∃ res st2, getSequencesLoop decode st ids = some (res, st2) := by
  intro ids
  induction ids with
  | nil => exact fun st _ => ⟨[], st, rfl⟩
  | cons id rest ih =>
    intro st h
    have hid : id < st.m_imageSequences.length := h id (by simp)
    have hd : st.m_imageSequences.get? id =
        some (st.m_imageSequences.get ⟨id, hid⟩) := List.get?_eq_get hid
    cases hp : processId decode st id with
    | none =>
      unfold processId at hp
      rw [hd] at hp
      exact Option.noConfusion hp
    | some pr =>
      obtain ⟨pair, st1⟩ := pr
      obtain ⟨d, _, _, hst1⟩ := processId_spec decode st id pair st1 hp
      have him : st1.m_imageSequences = st.m_imageSequences := by rw [hst1]
      obtain ⟨res, st2, hloop⟩ := ih st1
        (fun x hx => by rw [him]; exact h x (List.mem_cons_of_mem _ hx))
      exact ⟨pair :: res, st2, by simp [getSequencesLoop, hp, hloop]⟩

theorem loop_len (decode : String → Image) :
    ∀ (ids : List Nat) (st : DeserializerState) (res : List (Sequence × Sequence))
      (st2 : DeserializerState), getSequencesLoop decode st ids = some (res, st2) →
      res.length = ids.length ∧
      st2.m_currentImages.length = st.m_currentImages.length + ids.length := by
  intro ids
  induction ids with
  | nil =>
    intro st res st2 h
    cases h
    exact ⟨rfl, rfl⟩
  | cons id rest ih =>
    intro st res st2 h
    unfold getSequencesLoop at h
    split at h
    · cases h
    next pair st1 hp =>
      split at h
      · cases h
      next pairs stf hr =>
        cases h
        obtain ⟨d, _, _, hst1⟩ := processId_spec decode st id pair st1 hp
        obtain ⟨h1, h2⟩ := ih st1 pairs st2 hr
        constructor
        · simp [h1]
        · rw [h2, hst1]
          simp
          omega

theorem loop_keeps (decode : String → Image) :
    ∀ (ids : List Nat) (st : DeserializerState) (res : List (Sequence × Sequence))
      (st2 : DeserializerState), getSequencesLoop decode st ids = some (res, st2) →
      ∀ k, k < st.m_currentImages.length →
        st2.m_currentImages.get? k = st.m_currentImages.get? k := by
  intro ids
  induction ids with
  | nil =>
    intro st res st2 h k hk
    cases h
    rfl
  | cons id rest ih =>
    intro st res st2 h k hk
    unfold getSequencesLoop at h
    split at h
    · cases h
    next pair st1 hp =>
      split at h
      · cases h
      next pairs stf hr =>
        cases h
        obtain ⟨d, _, _, hst1⟩ := processId_spec decode st id pair st1 hp
        have hk1 : k < st1.m_currentImages.length := by
          rw [hst1]
          simp
          omega
        rw [ih st1 pairs st2 hr k hk1, hst1]
        exact List.get?_append hk

theorem loop_get (decode : String → Image) :
    ∀ (ids : List Nat) (st : DeserializerState) (res : List (Sequence × Sequence))
      (st2 : DeserializerState), getSequencesLoop decode st ids = some (res, st2) →
      ∀ k, k < ids.length →
        ∃ id d, ids.get? k = some id ∧ st.m_imageSequences.get? id = some d ∧
          res.get? k = some
            (⟨Ptr.imageBuf (st.m_currentImages.length + k),
              SeqLayout.whc (decode d.path).cols (decode d.path).rows (decode d.path).channels,
              d.numberOfSamples⟩,
             ⟨Ptr.labelBuf, SeqLayout.label st.m_labelSampleLayout, d.numberOfSamples⟩) ∧
          st2.m_currentImages.get? (st.m_currentImages.length + k) =
            some (decode d.path) := by
  intro ids
  induction ids with
  | nil => intro st res st2 h k hk; exact absurd hk (by simp)
  | cons id rest ih =>
    intro st res st2 h k hk
    unfold getSequencesLoop at h
    split at h
    · cases h
    next pair st1 hp =>
      split at h
      · cases h
      next pairs stf hr =>
        cases h
        obtain ⟨d, hd, hpair, hst1⟩ := processId_spec decode st id pair st1 hp
        cases k with
        | zero =>
          refine ⟨id, d, rfl, hd, by simpa using congrArg some hpair, ?_⟩
          simp only [Nat.add_zero]
          have hlt : st.m_currentImages.length < st1.m_currentImages.length := by
            rw [hst1]
            simp
          rw [loop_keeps decode rest st1 pairs st2 hr _ hlt, hst1]
          simpa using List.get?_concat_length st.m_currentImages (decode d.path)
        | succ k2 =>
          have hk2 : k2 < rest.length := by simpa using Nat.lt_of_succ_lt_succ hk
          obtain ⟨id2, d2, hid2, hd2, hres2, himg2⟩ := ih st1 pairs st2 hr k2 hk2
          have him : st1.m_imageSequences = st.m_imageSequences := by rw [hst1]
          have hl1 : st1.m_currentImages.length = st.m_currentImages.length + 1 := by
            rw [hst1]
            simp
          have hlay : st1.m_labelSampleLayout = st.m_labelSampleLayout := by rw [hst1]
          have harith : st1.m_currentImages.length + k2 =
              st.m_currentImages.length + (k2 + 1) := by omega
          refine ⟨id2, d2, by simpa using hid2, by rw [← him]; exact hd2, ?_, ?_⟩
          · rw [show ((pair :: pairs).get? (k2 + 1)) = pairs.get? k2 from rfl, hres2,
              harith, hlay]
          · rw [← harith]
            exact himg2

theorem loop_append (decode : String → Image) :
    ∀ (l1 l2 : List Nat) (st : DeserializerState),
      getSequencesLoop decode st (l1 ++ l2) =
        match getSequencesLoop decode st l1 with
        | none => none
        | some (r1, s1) =>
          match getSequencesLoop decode s1 l2 with
          | none => none
          | some (r2, s2) => some (r1 ++ r2, s2) := by
  intro l1
  induction l1 with
  | nil =>
    intro l2 st
    simp only [List.nil_append, getSequencesLoop]
    cases h2 : getSequencesLoop decode st l2 with
    | none => rfl
    | some pr =>
      obtain ⟨r2, s2⟩ := pr
      simp
  | cons id rest ih =>
    intro l2 st
    show getSequencesLoop decode st (id :: (rest ++ l2)) = _
    cases hp : processId decode st id with
    | none => simp [getSequencesLoop, hp]
    | some pr =>
      obtain ⟨pair, st1⟩ := pr
      simp only [getSequencesLoop, hp]
      rw [ih l2 st1]
      cases hr : getSequencesLoop decode st1 rest with
      | none => simp [hr]
      | some pr2 =>
        obtain ⟨r1, s1⟩ := pr2
        simp only [hr]
        cases h2 : getSequencesLoop decode s1 l2 with
        | none => simp [h2]
        | some pr3 =>
          obtain ⟨r2, s2⟩ := pr3
          simp [h2]

theorem loop_last_label (decode : String → Image) :
    ∀ (ids : List Nat) (st : DeserializerState) (res : List (Sequence × Sequence))
      (st2 : DeserializerState) (k : Nat),
      getSequencesLoop decode st ids = some (res, st2) → ids.length = k + 1 →
      ∃ id d, ids.get? k = some id ∧ st.m_imageSequences.get? id = some d ∧
        st2.m_labelData = oneHot st.m_labelData.length d.classId := by
  intro ids
  induction ids with
  | nil => intro st res st2 k h hlen; cases hlen
  | cons id rest ih =>
    intro st res st2 k h hlen
    unfold getSequencesLoop at h
    split at h
    · cases h
    next pair st1 hp =>
      split at h
      · cases h
      next pairs stf hr =>
        cases h
        obtain ⟨d, hd, hpair, hst1⟩ := processId_spec decode st id pair st1 hp
        cases rest with
        | nil =>
          have hk : k = 0 := by simpa using hlen.symm
          subst hk
          cases hr
          refine ⟨id, d, rfl, hd, ?_⟩
          rw [hst1]
          exact getLabelDataFor_eq_oneHot _ _
        | cons id2 rest2 =>
          have hk : k = rest2.length + 1 := by simpa using hlen.symm
          obtain ⟨idl, dl, hidl, hdl, hlab⟩ :=
            ih st1 pairs st2 rest2.length hr (by simp)
          have him : st1.m_imageSequences = st.m_imageSequences := by rw [hst1]
          have hlen1 : st1.m_labelData.length = st.m_labelData.length := by
            rw [hst1]
            exact length_getLabelDataFor _ _
          refine ⟨idl, dl, ?_, by rw [← him]; exact hdl, by rw [hlab, hlen1]⟩
          rw [hk]
          simpa using hidl

theorem mk_ok_state {config : Config} {st : DeserializerState}
    (h : mkImageDataDeserializer config = .ok st) :
    st.m_labelSampleLayout = config.label.sampleLayout ∧
    st.m_labelData = List.replicate config.label.sampleLayout.height 0 ∧
    st.m_currentImages = [] := by
  unfold mkImageDataDeserializer at h
  by_cases he : config.label.elementType = ElementType.et_other
  · simp [he] at h
  · simp only [if_neg he] at h
    cases hc : CreateSequenceDescriptions config.mapPath config.mapFile
        config.label.sampleLayout.height with
    | error e =>
      rw [hc] at h
      exact Except.noConfusion h
    | ok seqs =>
      rw [hc] at h
      cases h
      exact ⟨rfl, rfl, rfl⟩

/-! ### Claim theorems -/

/-- C1: for `0 <= classId < labelDimension`, `GetLabelDataFor classId` on a
generator whose buffer has size `labelDimension` returns a buffer of
exactly `labelDimension` elements with a 1 at position `classId` and 0
everywhere else, regardless of the buffer's previous contents (so no
stale 1-entries from earlier calls survive). -/
theorem c1_generate_one_hot (labelDimension classId : Nat) (buf : List Nat)
    (hlen : buf.length = labelDimension) (hc : classId < labelDimension) :
    (getLabelDataFor buf classId).length = labelDimension ∧
    (getLabelDataFor buf classId).get? classId = some 1 ∧
    ∀ j, j < labelDimension → j ≠ classId → (getLabelDataFor buf classId).get? j = some 0 := by
  rw [getLabelDataFor_eq_oneHot, hlen]
  exact ⟨length_oneHot _ _, oneHot_get_self hc, fun j hj hne => oneHot_get_other hj hne⟩

/-- Witness for C1: a generator of dimension 3 whose buffer still holds
the 1-entry of an earlier `GetLabelDataFor 0` call, now asked for class 1. -/
theorem c1_generate_one_hot_witness :
    ([1, 0, 0] : List Nat).length = 3 ∧ 1 < 3 ∧
    ((getLabelDataFor [1, 0, 0] 1).length = 3 ∧
     (getLabelDataFor [1, 0, 0] 1).get? 1 = some 1 ∧
     ∀ j, j < 3 → j ≠ 1 → (getLabelDataFor [1, 0, 0] 1).get? j = some 0) :=
  ⟨by decide, by decide, c1_generate_one_hot 3 1 [1, 0, 0] (by decide) (by decide)⟩

/-- C3: construction from a manifest of `N` well-formed rows yields a
timeline of length `N`; lookup succeeds for every id below `N` and fails
at `N`; every description has `id = chunkId =` line index,
`numberOfSamples = 1` and `isValid = true`. -/
theorem c3_timeline_construction (mapPath : String) (lines : List String)
    (labelDimension : Nat)
    (h : ∀ i (hi : i < lines.length), rowOk labelDimension (lines.get ⟨i, hi⟩) = true) :
    ∃ seqs, CreateSequenceDescriptions mapPath (some lines) labelDimension = .ok seqs ∧
      seqs.length = lines.length ∧
      (∀ i, i < lines.length → ∃ d, seqs.get? i = some d ∧ d.id = i ∧ d.chunkId = i ∧
        d.numberOfSamples = 1 ∧ d.isValid = true) ∧
      seqs.get? lines.length = none := by
  obtain ⟨seqs, hb, hlen, hget⟩ := buildRows_ok_spec mapPath labelDimension lines 0 h
  refine ⟨seqs, hb, hlen, ?_, List.get?_eq_none.mpr (by omega)⟩
  intro i hi
  obtain ⟨d, hd, hid, hch, hns, hvalid, _⟩ := hget i hi
  exact ⟨d, hd, by simpa using hid, by simpa using hch, hns, hvalid⟩

/-- Witness for C3: the spec's two-row manifest with label dimension 3. -/
theorem c3_timeline_construction_witness :
    ∃ seqs, CreateSequenceDescriptions "map.txt" (some ["img0.png\t0", "img1.png\t2"]) 3 =
        .ok seqs ∧
      seqs.length = (["img0.png\t0", "img1.png\t2"] : List String).length ∧
      (∀ i, i < (["img0.png\t0", "img1.png\t2"] : List String).length →
        ∃ d, seqs.get? i = some d ∧ d.id = i ∧ d.chunkId = i ∧
          d.numberOfSamples = 1 ∧ d.isValid = true) ∧
      seqs.get? (["img0.png\t0", "img1.png\t2"] : List String).length = none :=
  c3_timeline_construction "map.txt" ["img0.png\t0", "img1.png\t2"] 3 (by decide)

/-- Counterexample for C5: a manifest line with three tab-delimited
fields is accepted, not rejected — the loader succeeds, using the first
two fields and ignoring the rest, so no fatal format error is raised. -/
theorem c5_extra_fields_counterexample :
    CreateSequenceDescriptions "map.txt" (some ["img.png\t1\textra"]) 3 =
      Except.ok [⟨0, 0, "img.png", 1, 1, true⟩] ∧
    ∀ e, CreateSequenceDescriptions "map.txt" (some ["img.png\t1\textra"]) 3 ≠
      Except.error e := by
  refine ⟨by decide, fun e h => ?_⟩
  rw [show CreateSequenceDescriptions "map.txt" (some ["img.png\t1\textra"]) 3 =
      Except.ok [⟨0, 0, "img.png", 1, 1, true⟩] from by decide] at h
  exact Except.noConfusion h

/-- C5 (amended): assuming every earlier line is well-formed, line `i`
raises the fatal format error naming the manifest path and the 0-based
line index `i` exactly when a second tab-delimited field cannot be
extracted from it (the line is empty, has no tab, or ends at its first
tab); a line with three or more fields is accepted with the extra fields
ignored. -/
theorem c5_format_error_amended (mapPath : String) (lines : List String)
    (labelDimension i : Nat) (linei : String)
    (hline : lines.get? i = some linei)
    (hpre : ∀ j, j < i → ∀ lj, lines.get? j = some lj → rowOk labelDimension lj = true) :
    (CreateSequenceDescriptions mapPath (some lines) labelDimension =
        .error (.invalidFormat mapPath i) ↔ parseTwoFields linei = none) := by
  simpa using buildRows_invalid_iff mapPath labelDimension lines 0 i linei hline hpre

/-- Witness for C5 (amended): a well-formed row followed by a row with a
single field. -/
theorem c5_format_error_amended_witness :
    CreateSequenceDescriptions "m.txt" (some ["good\t0", "bad"]) 1 =
        .error (.invalidFormat "m.txt" 1) ↔ parseTwoFields "bad" = none :=
  c5_format_error_amended "m.txt" ["good\t0", "bad"] 1 1 "bad" (by decide)
    (fun j hj lj hlj => by
      have hj0 : j = 0 := by omega
      subst hj0
      have : lj = "good\t0" := by simpa using hlj.symm
      subst this
      decide)

/-- C6: a manifest row whose parsed class id is not strictly below the
label dimensionality is rejected during timeline construction — the
build can never return a timeline. -/
theorem c6_classid_bound (mapPath : String) (lines : List String)
    (labelDimension i : Nat) (hi : i < lines.length) (imgPath clsId : String) (v : Int)
    (hp : parseTwoFields (lines.get ⟨i, hi⟩) = some (imgPath, clsId))
    (hs : stoi clsId = some v) (hv : ¬ toSizeT v < labelDimension) :
    ∀ seqs, CreateSequenceDescriptions mapPath (some lines) labelDimension ≠ .ok seqs := by
  intro seqs hok
  have := buildRows_ok_rows mapPath labelDimension lines 0 seqs hok i hi
  rw [List.get_eq_getElem] at hp
  simp [rowOk, hp, hs, hv] at this

/-- Witness for C6: label dimension 3 with a row carrying class id 5 —
in particular the build cannot return the timeline entry the row would
otherwise denote. -/
theorem c6_classid_bound_witness :
    CreateSequenceDescriptions "m.txt" (some ["img.png\t5"]) 3 ≠
      .ok [⟨0, 0, "img.png", 5, 1, true⟩] :=
  c6_classid_bound "m.txt" ["img.png\t5"] 3 0 (by decide) "img.png" "5" 5
    (by decide) (by decide) (by decide) [⟨0, 0, "img.png", 5, 1, true⟩]

/-- C8: construction fails fatally when the label stream's element type
is neither float nor double, and when the manifest file cannot be opened
(in the latter case the raised error is the unsupported-type one if the
element type is also bad, else the cannot-open one). -/
theorem c8_construction_errors (config : Config) :
    (config.label.elementType ≠ ElementType.et_float →
      config.label.elementType ≠ ElementType.et_double →
      mkImageDataDeserializer config = .error .unsupportedLabelElementType) ∧
    (config.mapFile = none →
      mkImageDataDeserializer config = .error .unsupportedLabelElementType ∨
      mkImageDataDeserializer config = .error (.build (.cannotOpen config.mapPath))) := by
  constructor
  · intro h1 h2
    have he : config.label.elementType = .et_other := by
      cases h : config.label.elementType <;> simp_all
    simp [mkImageDataDeserializer, he]
  · intro hm
    by_cases he : config.label.elementType = .et_other
    · exact Or.inl (by simp [mkImageDataDeserializer, he])
    · exact Or.inr (by simp [mkImageDataDeserializer, he, CreateSequenceDescriptions, hm])

/-- A configuration with an unsupported label element type and an
unopenable manifest, for the C8 witness. -/
def c8cfg : Config :=
  ⟨⟨ElementType.et_float, ⟨1⟩⟩, ⟨ElementType.et_other, ⟨3⟩⟩, "m.txt", none⟩

/-- Witness for C8. -/
theorem c8_construction_errors_witness :
    mkImageDataDeserializer c8cfg = .error .unsupportedLabelElementType ∧
    (mkImageDataDeserializer c8cfg = .error .unsupportedLabelElementType ∨
      mkImageDataDeserializer c8cfg = .error (.build (.cannotOpen c8cfg.mapPath))) :=
  ⟨(c8_construction_errors c8cfg).1 (by decide) (by decide),
   (c8_construction_errors c8cfg).2 rfl⟩

/-- C9: `RequireChunk` always returns success without touching the
state, `ReleaseChunk` is a no-op, and neither hook affects the result of
any later lookup or materialization call. -/
theorem c9_chunk_hooks_noop (st : DeserializerState) (chunkIndex : Nat) :
    RequireChunk st chunkIndex = (true, st) ∧
    ReleaseChunk st chunkIndex = st ∧
    (∀ decode ids, GetSequencesById decode (RequireChunk st chunkIndex).2 ids =
      GetSequencesById decode st ids) ∧
    (∀ decode ids, GetSequencesById decode (ReleaseChunk st chunkIndex) ids =
      GetSequencesById decode st ids) ∧
    (∀ id, (GetSequenceDescriptions (ReleaseChunk st chunkIndex)).get? id =
      (GetSequenceDescriptions st).get? id) :=
  ⟨rfl, rfl, fun _ _ => rfl, fun _ _ => rfl, fun _ => rfl⟩

/-- C10: `GetInputs` always raises the "Not supported" error and never
returns a list of input descriptions. -/
theorem c10_getinputs_not_supported (st : DeserializerState) :
    GetInputs st = Except.error "Not supported" ∧
    ∀ l, GetInputs st ≠ Except.ok l :=
  ⟨rfl, fun _ h => Except.noConfusion h⟩

/-- C4: for a deserializer built by the constructor and a non-empty batch
of in-range ids, `GetSequencesById` returns exactly one (feature, label)
pair per id, in input order; both payloads of pair `k` carry the
`numberOfSamples` of id `k`'s description, the feature payload points at
retained image slot `k` (holding the decode of that description's path),
and the label generation performed at step `k` wrote the one-hot vector
of that description's `classId` into the shared buffer (witnessed by the
generator state after materializing the `k+1`-prefix). -/
theorem c4_materialize_pairs (config : Config) (st : DeserializerState)
    (decode : String → Image) (ids : List Nat)
    (hok : mkImageDataDeserializer config = .ok st)
    (hne : ids ≠ [])
    (hids : ∀ id ∈ ids, id < st.m_imageSequences.length) :
    ∃ res st2, GetSequencesById decode st ids = some (res, st2) ∧
      res.length = ids.length ∧
      ∀ k, k < ids.length →
        ∃ id d, ids.get? k = some id ∧ st.m_imageSequences.get? id = some d ∧
          ∃ pair, res.get? k = some pair ∧
            pair.1.numberOfSamples = d.numberOfSamples ∧
            pair.2.numberOfSamples = d.numberOfSamples ∧
            pair.1.data = Ptr.imageBuf k ∧
            pair.2.data = Ptr.labelBuf ∧
            st2.m_currentImages.get? k = some (decode d.path) ∧
            ∃ resk stk,
              GetSequencesById decode st (ids.take (k + 1)) = some (resk, stk) ∧
              stk.m_labelData = oneHot st.m_labelSampleLayout.height d.classId := by
  obtain ⟨hlay, hlab, _⟩ := mk_ok_state hok
  have hlablen : st.m_labelData.length = st.m_labelSampleLayout.height := by
    rw [hlab, hlay]
    simp
  have hemp : ids.isEmpty = false := by
    cases ids with
    | nil => exact absurd rfl hne
    | cons _ _ => rfl
  obtain ⟨res, st2, hloop⟩ :=
    loop_total decode ids { st with m_currentImages := [] } hids
  have hgs : GetSequencesById decode st ids = some (res, st2) := by
    unfold GetSequencesById
    rw [hemp]
    simpa using hloop
  obtain ⟨hreslen, _⟩ := loop_len decode ids { st with m_currentImages := [] } res st2 hloop
  refine ⟨res, st2, hgs, hreslen, ?_⟩
  intro k hk
  obtain ⟨id, d, hid, hd, hres, himg⟩ :=
    loop_get decode ids { st with m_currentImages := [] } res st2 hloop k hk
  have hres2 : res.get? k = some
      (⟨Ptr.imageBuf k,
        SeqLayout.whc (decode d.path).cols (decode d.path).rows (decode d.path).channels,
        d.numberOfSamples⟩,
       ⟨Ptr.labelBuf, SeqLayout.label st.m_labelSampleLayout, d.numberOfSamples⟩) := by
    simpa using hres
  have himg2 : st2.m_currentImages.get? k = some (decode d.path) := by
    simpa using himg
  refine ⟨id, d, hid, hd, _, hres2, rfl, rfl, rfl, rfl, himg2, ?_⟩
  have happ := loop_append decode (ids.take (k + 1)) (ids.drop (k + 1))
    { st with m_currentImages := [] }
  rw [List.take_append_drop, hloop] at happ
  cases htake : getSequencesLoop decode { st with m_currentImages := [] }
      (ids.take (k + 1)) with
  | none =>
    rw [htake] at happ
    simp at happ
  | some prk =>
    obtain ⟨resk, stk⟩ := prk
    have htlen : (ids.take (k + 1)).length = k + 1 := by
      rw [List.length_take]
      omega
    obtain ⟨idl, dl, hidl, hdl, hlablast⟩ :=
      loop_last_label decode (ids.take (k + 1)) { st with m_currentImages := [] }
        resk stk k htake htlen
    have hidtake : (ids.take (k + 1)).get? k = ids.get? k := List.get?_take (by omega)
    rw [hidtake, hid] at hidl
    have hido : id = idl := by
      injection hidl.symm with h2
      exact h2.symm
    subst hido
    have hdld : dl = d := by
      have : some d = some dl := by rw [← hd, ← hdl]
      injection this with h2
      exact h2.symm
    subst hdld
    have htne : (ids.take (k + 1)).isEmpty = false := by
      cases hts : ids.take (k + 1) with
      | nil => rw [hts] at htlen; cases htlen
      | cons _ _ => rfl
    refine ⟨resk, stk, ?_, ?_⟩
    · unfold GetSequencesById
      rw [htne]
      simpa using htake
    · rw [hlablast]
      have : ({ st with m_currentImages := ([] : List Image) }).m_labelData.length =
          st.m_labelSampleLayout.height := hlablen
      rw [this]

/-- The configuration, constructed state, and decode capability used by
the C4 witness. -/
def w4cfg : Config :=
  ⟨⟨ElementType.et_float, ⟨2⟩⟩, ⟨ElementType.et_double, ⟨2⟩⟩, "w.txt", some ["a\t1"]⟩

/-- The deserializer state the constructor produces from `w4cfg`. -/
def w4st : DeserializerState :=
  ⟨ElementType.et_float, ⟨2⟩, ElementType.et_double, [0, 0], [⟨0, 0, "a", 1, 1, true⟩], []⟩

/-- A concrete decode capability for the C4 witness. -/
def w4decode : String → Image := fun _ => ⟨1, 1, 3, [7]⟩

/-- Witness for C4: the one-row manifest deserializer materializing `[0]`. -/
theorem c4_materialize_pairs_witness :
    ∃ res st2, GetSequencesById w4decode w4st [0] = some (res, st2) ∧
      res.length = ([0] : List Nat).length ∧
      ∀ k, k < ([0] : List Nat).length →
        ∃ id d, ([0] : List Nat).get? k = some id ∧
          w4st.m_imageSequences.get? id = some d ∧
          ∃ pair, res.get? k = some pair ∧
            pair.1.numberOfSamples = d.numberOfSamples ∧
            pair.2.numberOfSamples = d.numberOfSamples ∧
            pair.1.data = Ptr.imageBuf k ∧
            pair.2.data = Ptr.labelBuf ∧
            st2.m_currentImages.get? k = some (w4decode d.path) ∧
            ∃ resk stk,
              GetSequencesById w4decode w4st (([0] : List Nat).take (k + 1)) =
                some (resk, stk) ∧
              stk.m_labelData = oneHot w4st.m_labelSampleLayout.height d.classId :=
  c4_materialize_pairs w4cfg w4st w4decode [0] (by decide) (by decide) (by decide)

/-- C7: after `GetSequencesById batchA` then `GetSequencesById batchB` on
the same deserializer, the retained feature-buffer pool holds exactly one
decoded image per id of `batchB`, in order — everything retained for
`batchA` was discarded at the start of the second call. -/
theorem c7_batch_isolation (decode : String → Image) (st0 stA stB : DeserializerState)
    (batchA batchB : List Nat) (resA resB : List (Sequence × Sequence))
    (hA : GetSequencesById decode st0 batchA = some (resA, stA))
    (hB : GetSequencesById decode stA batchB = some (resB, stB)) :
    stB.m_currentImages.length = batchB.length ∧
    ∀ k, k < batchB.length → ∃ id d, batchB.get? k = some id ∧
      stA.m_imageSequences.get? id = some d ∧
      stB.m_currentImages.get? k = some (decode d.path) := by
  unfold GetSequencesById at hB
  cases hemp : batchB.isEmpty with
  | true =>
    rw [hemp] at hB
    exact Option.noConfusion hB
  | false =>
    rw [hemp] at hB
    have hB2 : getSequencesLoop decode { stA with m_currentImages := [] } batchB =
        some (resB, stB) := hB
    have h1 := loop_len decode batchB { stA with m_currentImages := [] } resB stB hB2
    constructor
    · simpa using h1.2
    · intro k hk
      obtain ⟨id, d, hid, hd, _, himg⟩ :=
        loop_get decode batchB { stA with m_currentImages := [] } resB stB hB2 k hk
      exact ⟨id, d, hid, hd, by simpa using himg⟩

/-- The initial state for the C7 witness: a one-row timeline. -/
def w7st : DeserializerState :=
  ⟨ElementType.et_float, ⟨1⟩, ElementType.et_float, [0], [⟨0, 0, "a", 0, 1, true⟩], []⟩

/-- A concrete decode capability for the C7 witness. -/
def w7decode : String → Image := fun _ => ⟨2, 1, 1, [9]⟩

/-- The batch result both calls of the C7 witness return. -/
def w7res : List (Sequence × Sequence) :=
  [(⟨Ptr.imageBuf 0, SeqLayout.whc 2 1 1, 1⟩, ⟨Ptr.labelBuf, SeqLayout.label ⟨1⟩, 1⟩)]

/-- The state after each call of the C7 witness. -/
def w7stA : DeserializerState :=
  ⟨ElementType.et_float, ⟨1⟩, ElementType.et_float, [1], [⟨0, 0, "a", 0, 1, true⟩],
   [⟨2, 1, 1, [9]⟩]⟩

/-- Witness for C7: two successive calls on the same deserializer. -/
theorem c7_batch_isolation_witness :
    GetSequencesById w7decode w7st [0] = some (w7res, w7stA) ∧
    GetSequencesById w7decode w7stA [0] = some (w7res, w7stA) ∧
    (w7stA.m_currentImages.length = ([0] : List Nat).length ∧
     ∀ k, k < ([0] : List Nat).length → ∃ id d, ([0] : List Nat).get? k = some id ∧
       w7stA.m_imageSequences.get? id = some d ∧
       w7stA.m_currentImages.get? k = some (w7decode d.path)) :=
  ⟨by decide, by decide,
   c7_batch_isolation w7decode w7st w7stA w7stA [0] [0] w7res w7res
     (by decide) (by decide)⟩

/-- The spec scenario's configuration: two manifest rows, label dimension 3. -/
def c2cfg : Config :=
  ⟨⟨ElementType.et_float, ⟨4⟩⟩, ⟨ElementType.et_float, ⟨3⟩⟩, "map.txt",
   some ["img0.png\t0", "img1.png\t2"]⟩

/-- The deserializer state the constructor produces from `c2cfg`. -/
def c2st : DeserializerState :=
  ⟨ElementType.et_float, ⟨3⟩, ElementType.et_float, [0, 0, 0],
   [⟨0, 0, "img0.png", 0, 1, true⟩, ⟨1, 1, "img1.png", 2, 1, true⟩], []⟩

/-- A concrete decode capability for the C2 counterexample. -/
def c2decode : String → Image := fun _ => ⟨2, 2, 3, [5]⟩

/-- Counterexample for C2: in the spec scenario, dereferencing pair 0's
label pointer at the time the batch is returned yields `[0, 0, 1]` — the
single reused generator buffer after the second generation — and not
`[1, 0, 0]` as the claim states. -/
theorem c2_stale_label_counterexample :
    mkImageDataDeserializer c2cfg = .ok c2st ∧
    ((GetSequencesById c2decode c2st [0, 1]).bind (fun rs =>
      (rs.1.get? 0).bind (fun pair => readPtr rs.2 pair.2.data))) = some [0, 0, 1] ∧
    some [0, 0, 1] ≠ some ([1, 0, 0] : List Nat) :=
  ⟨by decide, by decide, by decide⟩

/-- C2 (amended): `materialize [0, 1]` on the scenario deserializer
returns exactly two pairs whose feature payloads carry
`numberOfSamples = 1`; but both pairs' label pointers alias the
generator's single buffer, which at return time holds `[0, 0, 1]` — pair
0's label buffer held `[1, 0, 0]` only until the second generation call
(as witnessed by materializing the one-element prefix `[0]`). -/
theorem c2_scenario_amended (decode : String → Image) :
    mkImageDataDeserializer c2cfg = .ok c2st ∧
    (∃ res st2, GetSequencesById decode c2st [0, 1] = some (res, st2) ∧
      res.length = 2 ∧
      (∀ pair ∈ res, pair.1.numberOfSamples = 1 ∧ pair.2.numberOfSamples = 1) ∧
      ∃ p0 p1, res.get? 0 = some p0 ∧ res.get? 1 = some p1 ∧
        p0.2.data = Ptr.labelBuf ∧ p1.2.data = Ptr.labelBuf ∧
        readPtr st2 p0.2.data = some [0, 0, 1] ∧
        readPtr st2 p1.2.data = some [0, 0, 1]) ∧
    (∃ res1 st1, GetSequencesById decode c2st [0] = some (res1, st1) ∧
      st1.m_labelData = [1, 0, 0]) := by
  refine ⟨by decide, ⟨_, _, rfl, rfl, ?_, _, _, rfl, rfl, rfl, rfl, rfl, rfl⟩,
    _, _, rfl, rfl⟩
  intro pair hp
  rcases List.mem_cons.mp hp with h | h
  · subst h
    exact ⟨rfl, rfl⟩
  · rcases List.mem_cons.mp h with h2 | h2
    · subst h2
      exact ⟨rfl, rfl⟩
    · cases h2

end CNTK
